import Mathlib

/-!
Formal model of the TalentMatch-AI job matcher (src/utils/jobs_matcher.py).

Modelling conventions:
* Python strings are Lean `String`s; text processing is done on their
  underlying `List Char`.  Python `str.lower()` is modelled ASCII-only
  (all catalog keywords and scoring constants are ASCII).
* Pandas missing values (NaN / absent column) are modelled as `none` of an
  `Option String` field.  Python `str(x)` applied to a NaN cell yields the
  string "nan", which `pyStr` reproduces.
* Python floats are modelled as exact rationals (`ℚ`); the scoring
  constants 0.5, 0.3, 0.2, 0.95, ... are exact in this model.
* `pandas.DataFrame.sort_values(col, ascending=False)` is modelled after
  its implementation (`nargsort`): for a descending sort pandas reverses
  the values and the index array, runs an ascending argsort, and reverses
  the resulting indexer again.  The ascending argsort is modelled as a
  stable insertion sort (numpy's argsort is not guaranteed stable for the
  default quicksort kind, but is stable on small arrays, where its
  introsort insertion-sorts); under this double reversal a stable
  ascending argsort yields a stable descending sort, so equal keys keep
  their input order.
-/

/-- ASCII lower-casing of a single character, modelling Python str.lower
on the ASCII fragment. -/
def pyLowerChar (c : Char) : Char :=
  if 'A' ≤ c ∧ c ≤ 'Z' then Char.ofNat (c.toNat + 32) else c

/-- Python whitespace characters recognised by str.strip and str.split. -/
def isPySpace (c : Char) : Bool :=
  c = ' ' || c = '\t' || c = '\n' || c = '\r' || c = '\x0b' || c = '\x0c'

/-- Does the needle occur at the head of the haystack? -/
def subAt : List Char → List Char → Bool
  | [], _ => true
  | _ :: _, [] => false
  | a :: as, b :: bs => a = b && subAt as bs

/-- Python substring containment, needle occurring anywhere in the
haystack (the Python expression needle in haystack). -/
def hasSub (needle : List Char) : List Char → Bool
  | [] => needle.isEmpty
  | b :: bs => subAt needle (b :: bs) || hasSub needle bs

/-- Python str.strip: drop leading and trailing whitespace. -/
def trimChars (l : List Char) : List Char :=
  ((l.dropWhile isPySpace).reverse.dropWhile isPySpace).reverse

/-- Helper for splitWS, accumulating the current word reversed. -/
def splitWSAux (cur : List Char) : List Char → List (List Char)
  | [] => if cur = [] then [] else [cur.reverse]
  | c :: cs =>
    if isPySpace c then
      if cur = [] then splitWSAux [] cs else cur.reverse :: splitWSAux [] cs
    else splitWSAux (c :: cur) cs

/-- Python str.split() with no separator: split on runs of whitespace,
discarding empty pieces. -/
def splitWS (l : List Char) : List (List Char) := splitWSAux [] l

/-- Python str() applied to a cell that may be a pandas NaN:
str(float(chars nan)) is the string "nan". -/
def pyStr : Option String → String
  | none => "nan"
  | some s => s

/-- First newline-delimited piece of a character list: Python
s.split(chars backslash-n)[0]. -/
def firstLineChars (l : List Char) : List Char :=
  l.takeWhile (fun c => c != '\n')

/-- Structured résumé attributes (spec section 3 ResumeProfile), as produced
by the analyzer collaborator; every field present. -/
structure ResumeProfile where
  skills : List String
  experience_years : ℚ
  past_roles : List String
  current_role : String
  domain : String
  projects : List String
  education_level : String
  technologies : List String
  career_level : String
  work_preferences : String
  key_achievements : List String
  desired_roles : List String
deriving DecidableEq

/-- One job-catalog row after load (spec section 3 JobPosting): the
recognised columns, each possibly missing (NaN). -/
structure JobPosting where
  category : Option String
  job_description : Option String
  company : Option String
  location : Option String
  post_link : Option String
  keywords : Option String
deriving DecidableEq

/-- Result record appended by finding_matching_jobs for one included
posting (spec section 3 MatchResult). -/
structure MatchResult where
  title : String
  company : Option String
  location : Option String
  experience_level : String
  description : Option String
  post_link : Option String
  keywords : Option String
  match_score : ℚ
  skill_score : ℚ
  exp_score : ℚ
  title_score : ℚ
deriving DecidableEq

/-- Dictionary returned by calculate_overall_score (jobs_matcher.py
lines 211-217). -/
structure Scores where
  overall : ℚ
  skill_score : ℚ
  exp_score : ℚ
  title_score : ℚ
  estimated_level : String
deriving DecidableEq

/-- JobMatcher.extract_title_from_description (jobs_matcher.py lines 39-54):
NaN description gives "Unknown Position"; otherwise the first 200
characters are taken, split at the first newline, stripped and truncated
to 100 characters.  (split always returns a nonempty list, so the final
return "Unknown Position" at line 54 is unreachable.) -/
def extract_title_from_description : Option String → String
  | none => "Unknown Position"
  | some d =>
    let first_part := d.data.take 200
    let line0 := firstLineChars first_part
    String.mk ((trimChars line0).take 100)

/-- Combined lower-cased text searched by calculate_skill_match
(jobs_matcher.py lines 65-70): space-join of str(description),
str(title) and, when keywords is truthy and not NaN, str(keywords). -/
def skillText (job_description job_title job_keywords : Option String) : List Char :=
  let base := (pyStr job_description).data ++ ' ' :: (pyStr job_title).data
  let withKw :=
    match job_keywords with
    | some k => if k = "" then base else base ++ ' ' :: k.data
    | none => base
  withKw.map pyLowerChar

/-- JobMatcher.calculate_skill_match (jobs_matcher.py lines 56-77):
fraction of résumé skills whose lower-cased form occurs as a substring of
the combined text; 0.0 for an empty skill list.  The keywords argument
defaults to None exactly as in the source. -/
def calculate_skill_match (resume_skills : List String)
    (job_description job_title : Option String)
    (job_keywords : Option String := none) : ℚ :=
  if resume_skills = [] then 0
  else
    let combined_text := skillText job_description job_title job_keywords
    let matched_count :=
      (resume_skills.filter
        (fun skill => hasSub (skill.data.map pyLowerChar) combined_text)).length
    (matched_count : ℚ) / (resume_skills.length : ℚ)

/-- Lower-cased concatenation searched by estimate_experience_level
(jobs_matcher.py lines 83-88): NaN inputs are replaced by the empty
string before concatenation. -/
def levelText (job_description job_title : Option String) : List Char :=
  ((job_description.getD "").data ++ ' ' :: (job_title.getD "").data).map pyLowerChar

/-- Does any of the keyword strings occur in the haystack? -/
def containsAnyC (hay : List Char) (needles : List String) : Bool :=
  needles.any (fun w => hasSub w.data hay)

/-- JobMatcher.estimate_experience_level (jobs_matcher.py lines 79-102):
first matching keyword set wins, default Mid-Senior level. -/
def estimate_experience_level (job_description job_title : Option String) : String :=
  let combined := levelText job_description job_title
  if containsAnyC combined ["intern", "internship"] then "Internship"
  else if containsAnyC combined ["entry level", "junior", "graduate", "associate"] then "Entry level"
  else if containsAnyC combined ["senior", "sr.", "lead", "principal"] then "Mid-Senior level"
  else if containsAnyC combined ["director", "head of", "vp", "vice president"] then "Director"
  else if containsAnyC combined ["chief", "cto", "ceo", "executive"] then "Executive"
  else "Mid-Senior level"

/-- Level-to-year-range table of calculate_experience_match
(jobs_matcher.py lines 111-118); none for a level outside the table. -/
def level_ranges (lvl : String) : Option (ℚ × ℚ) :=
  if lvl = "Internship" then some (0, 1)
  else if lvl = "Entry level" then some (0, 2)
  else if lvl = "Associate" then some (1, 3)
  else if lvl = "Mid-Senior level" then some (3, 8)
  else if lvl = "Director" then some (8, 15)
  else if lvl = "Executive" then some (15, 30)
  else none

/-- JobMatcher.calculate_experience_match (jobs_matcher.py lines 104-148):
1.0 inside the band, stepwise decay below the minimum and above the
maximum, 0.5 for NaN, empty, or unknown level. -/
def calculate_experience_match (resume_years : ℚ) (job_level : Option String) : ℚ :=
  match job_level with
  | none => 1/2
  | some lvl =>
    if lvl = "" then 1/2
    else
      match level_ranges lvl with
      | none => 1/2
      | some (min_years, max_years) =>
        if min_years ≤ resume_years ∧ resume_years ≤ max_years then 1
        else if resume_years < min_years then
          let gap := min_years - resume_years
          if gap ≤ 1/2 then 95/100
          else if gap ≤ 1 then 85/100
          else if gap ≤ 3/2 then 7/10
          else if gap ≤ 2 then 55/100
          else 3/10
        else
          let gap := resume_years - max_years
          if gap ≤ 1 then 9/10
          else if gap ≤ 2 then 3/4
          else if gap ≤ 3 then 6/10
          else 2/5

/-- Size of the set intersection of the lower-cased word set of one
desired role with the word set of the (already lower-cased) job title
(jobs_matcher.py lines 159-161). -/
def commonWordCount (desired : String) (title_lowered : List Char) : Nat :=
  (((splitWS (desired.data.map pyLowerChar)).dedup).filter
    (fun w => decide (w ∈ splitWS title_lowered))).length

/-- Loop body of calculate_title_match (jobs_matcher.py lines 158-168):
returns 1.0 on two or more common words, 0.7 on exactly one common word
(both immediately), 0.3 after exhausting the desired roles. -/
def titleLoop (title_lowered : List Char) : List String → ℚ
  | [] => 3/10
  | d :: ds =>
    let c := commonWordCount d title_lowered
    if 2 ≤ c then 1
    else if c = 1 then 7/10
    else titleLoop title_lowered ds

/-- JobMatcher.calculate_title_match (jobs_matcher.py lines 150-168). -/
def calculate_title_match (job_title : Option String)
    (resume_desired_roles : List String) : ℚ :=
  match job_title with
  | none => 1/2
  | some t =>
    if resume_desired_roles = [] then 1/2
    else titleLoop (t.data.map pyLowerChar) resume_desired_roles

/-- Title resolution of calculate_overall_score (jobs_matcher.py lines
173-178, duplicated verbatim at lines 244-246): the category column when
present and nonempty, otherwise the extracted fallback title. -/
def resolveJobTitle (job : JobPosting) : String :=
  match job.category with
  | none => extract_title_from_description job.job_description
  | some t => if t = "" then extract_title_from_description job.job_description else t

/-- JobMatcher.calculate_overall_score (jobs_matcher.py lines 170-217).
Note that the call at lines 183-187 passes no keywords argument to
calculate_skill_match, so the keywords column takes no part in the
pipeline skill score. -/
def calculate_overall_score (resume : ResumeProfile) (job : JobPosting) : Scores :=
  let job_title := resolveJobTitle job
  let estimated_level := estimate_experience_level job.job_description (some job_title)
  let skill_score := calculate_skill_match resume.skills job.job_description (some job_title)
  let exp_score := calculate_experience_match resume.experience_years (some estimated_level)
  let title_score := calculate_title_match (some job_title) resume.desired_roles
  { overall := skill_score * (1/2) + exp_score * (3/10) + title_score * (1/5)
    skill_score := skill_score
    exp_score := exp_score
    title_score := title_score
    estimated_level := estimated_level }

/-- Result record appended for an included posting (jobs_matcher.py lines
248-260). -/
def mkResult (job : JobPosting) (scores : Scores) : MatchResult :=
  { title := resolveJobTitle job
    company := job.company
    location := job.location
    experience_level := scores.estimated_level
    description := job.job_description
    post_link := job.post_link
    keywords := job.keywords
    match_score := scores.overall
    skill_score := scores.skill_score
    exp_score := scores.exp_score
    title_score := scores.title_score }

/-- Threshold-filtering pass of finding_matching_jobs (jobs_matcher.py
lines 231-260): the results list built by the catalog loop. -/
def includedResults (resume : ResumeProfile) (catalog : List JobPosting)
    (min_score : ℚ) : List MatchResult :=
  catalog.filterMap (fun job =>
    if min_score ≤ (calculate_overall_score resume job).overall
    then some (mkResult job (calculate_overall_score resume job)) else none)

/-- Stable ascending insertion by match_score: the new element is placed
before the first element with a key at least as large, so equal keys keep
their original relative order. -/
def insertAsc (r : MatchResult) : List MatchResult → List MatchResult
  | [] => [r]
  | x :: xs =>
    if r.match_score ≤ x.match_score then r :: x :: xs
    else x :: insertAsc r xs

/-- Stable ascending sort by match_score. -/
def sortAsc : List MatchResult → List MatchResult
  | [] => []
  | x :: xs => insertAsc x (sortAsc xs)

/-- Model of results_df.sort_values(match_score, ascending=False)
(jobs_matcher.py line 268).  Pandas nargsort handles a descending sort by
reversing the values and the index array, running an ascending argsort,
and reversing the resulting indexer again; with the ascending argsort
modelled stable (see the header note) this double reversal is a stable
descending sort. -/
def sort_values_desc (l : List MatchResult) : List MatchResult :=
  (sortAsc l.reverse).reverse

/-- JobMatcher.finding_matching_jobs (jobs_matcher.py lines 219-274):
score every posting, keep those with overall at least min_score, return
an empty result on no hit, otherwise sort descending and truncate to the
first top_n rows. -/
def finding_matching_jobs (resume : ResumeProfile) (catalog : List JobPosting)
    (top_n : ℕ := 10) (min_score : ℚ := 3/10) : List MatchResult :=
  let results := includedResults resume catalog min_score
  if results = [] then []
  else (sort_values_desc results).take top_n

/-! ### List infrastructure lemmas for the ranker -/

theorem length_insertAsc (r : MatchResult) (l : List MatchResult) :
    (insertAsc r l).length = l.length + 1 := by
  induction l with
  | nil => rfl
  | cons x xs ih =>
    unfold insertAsc
    split
    · simp
    · simpa [List.length_cons] using ih

theorem length_sortAsc (l : List MatchResult) : (sortAsc l).length = l.length := by
  induction l with
  | nil => rfl
  | cons x xs ih => simp [sortAsc, length_insertAsc, ih]

theorem mem_insertAsc {a r : MatchResult} {l : List MatchResult} :
    a ∈ insertAsc r l ↔ a = r ∨ a ∈ l := by
  induction l with
  | nil => simp [insertAsc]
  | cons x xs ih =>
    unfold insertAsc
    split
    · constructor
      · intro h
        rcases List.mem_cons.mp h with h | h
        · exact Or.inl h
        · exact Or.inr h
      · intro h
        rcases h with h | h
        · exact List.mem_cons.mpr (Or.inl h)
        · exact List.mem_cons.mpr (Or.inr h)
    · constructor
      · intro h
        rcases List.mem_cons.mp h with h | h
        · exact Or.inr (List.mem_cons.mpr (Or.inl h))
        · rcases ih.mp h with h | h
          · exact Or.inl h
          · exact Or.inr (List.mem_cons.mpr (Or.inr h))
      · intro h
        rcases h with h | h
        · exact List.mem_cons.mpr (Or.inr (ih.mpr (Or.inl h)))
        · rcases List.mem_cons.mp h with h | h
          · exact List.mem_cons.mpr (Or.inl h)
          · exact List.mem_cons.mpr (Or.inr (ih.mpr (Or.inr h)))

theorem mem_sortAsc {a : MatchResult} {l : List MatchResult} :
    a ∈ sortAsc l ↔ a ∈ l := by
  induction l with
  | nil => simp [sortAsc]
  | cons x xs ih =>
    simp only [sortAsc, mem_insertAsc, ih, List.mem_cons]

theorem sublist_insertAsc (r : MatchResult) (l : List MatchResult) :
    List.Sublist l (insertAsc r l) := by
  induction l with
  | nil => simp [insertAsc]
  | cons x xs ih =>
    unfold insertAsc
    split
    · exact List.Sublist.cons r (List.Sublist.refl _)
    · exact List.Sublist.cons₂ x ih

theorem pair_sublist_insertAsc {x y : MatchResult} {l : List MatchResult}
    (hy : y ∈ l) (hle : x.match_score ≤ y.match_score) :
    List.Sublist [x, y] (insertAsc x l) := by
  induction l with
  | nil => cases hy
  | cons z zs ih =>
    unfold insertAsc
    split
    · exact List.Sublist.cons₂ x (List.singleton_sublist.mpr hy)
    · rename_i hz
      rcases List.mem_cons.mp hy with rfl | hy'
      · exact absurd hle hz
      · exact List.Sublist.cons z (ih hy')

theorem pair_sublist_sortAsc {x y : MatchResult} {l : List MatchResult}
    (h : List.Sublist [x, y] l) (hle : x.match_score ≤ y.match_score) :
    List.Sublist [x, y] (sortAsc l) := by
  induction l with
  | nil => cases h
  | cons z zs ih =>
    cases h with
    | cons _ h' =>
      exact (ih h').trans (sublist_insertAsc z (sortAsc zs))
    | cons₂ _ h' =>
      exact pair_sublist_insertAsc (mem_sortAsc.mpr (List.singleton_sublist.mp h')) hle

theorem pair_sublist_of_get {α : Type _} (l : List α) (i j : ℕ)
    (hi : i < l.length) (hj : j < l.length) (hij : i < j) :
    List.Sublist [l.get ⟨i, hi⟩, l.get ⟨j, hj⟩] l := by
  induction l generalizing i j with
  | nil => cases hi
  | cons x xs ih =>
    cases i with
    | zero =>
      cases j with
      | zero => cases hij
      | succ j' =>
        exact List.Sublist.cons₂ x
          (List.singleton_sublist.mpr (xs.get_mem j' (Nat.lt_of_succ_lt_succ hj)))
    | succ i' =>
      cases j with
      | zero => cases hij
      | succ j' =>
        exact List.Sublist.cons x
          (ih i' j' (Nat.lt_of_succ_lt_succ hi) (Nat.lt_of_succ_lt_succ hj)
            (Nat.lt_of_succ_lt_succ hij))

/-- Predicate: the posting's overall score meets the threshold. -/
def meetsThreshold (resume : ResumeProfile) (min_score : ℚ) (job : JobPosting) : Bool :=
  decide (min_score ≤ (calculate_overall_score resume job).overall)

theorem includedResults_eq_filter_map (resume : ResumeProfile)
    (catalog : List JobPosting) (min_score : ℚ) :
    includedResults resume catalog min_score =
      (catalog.filter (meetsThreshold resume min_score)).map
        (fun job => mkResult job (calculate_overall_score resume job)) := by
  induction catalog with
  | nil => rfl
  | cons j js ih =>
    simp only [includedResults, List.filterMap_cons, List.filter_cons] at *
    by_cases h : min_score ≤ (calculate_overall_score resume j).overall
    · simp [meetsThreshold, h, ih]
    · simp [meetsThreshold, h, ih]

theorem length_includedResults (resume : ResumeProfile)
    (catalog : List JobPosting) (min_score : ℚ) :
    (includedResults resume catalog min_score).length =
      (catalog.filter (meetsThreshold resume min_score)).length := by
  rw [includedResults_eq_filter_map, List.length_map]

theorem mem_finding_mem_included {resume : ResumeProfile} {catalog : List JobPosting}
    {top_n : ℕ} {min_score : ℚ} {r : MatchResult}
    (h : r ∈ finding_matching_jobs resume catalog top_n min_score) :
    r ∈ includedResults resume catalog min_score := by
  simp only [finding_matching_jobs] at h
  split at h
  · cases h
  · exact List.mem_reverse.mp
      (mem_sortAsc.mp (List.mem_reverse.mp ((List.take_sublist _ _).mem h)))

/-! ### Claim theorems -/

/-- C1: finding_matching_jobs puts a posting into the result set (the
results list built by the catalog loop) exactly when its overall score is
at least min_score; the returned sequence has length
min(top_n, number of postings meeting the threshold); and when no posting
meets the threshold it returns the empty sequence normally. -/
theorem ranking_threshold_and_truncation (resume : ResumeProfile)
    (catalog : List JobPosting) (top_n : ℕ) (min_score : ℚ) :
    (∀ r ∈ finding_matching_jobs resume catalog top_n min_score,
        min_score ≤ r.match_score) ∧
    (∀ job ∈ catalog,
        (mkResult job (calculate_overall_score resume job) ∈
            includedResults resume catalog min_score ↔
          min_score ≤ (calculate_overall_score resume job).overall)) ∧
    (finding_matching_jobs resume catalog top_n min_score).length =
        min top_n (catalog.filter (meetsThreshold resume min_score)).length ∧
    ((∀ job ∈ catalog,
        (calculate_overall_score resume job).overall < min_score) →
      finding_matching_jobs resume catalog top_n min_score = []) := by
  refine ⟨?_, ?_, ?_, ?_⟩
  · intro r hr
    have h1 := mem_finding_mem_included hr
    rw [includedResults_eq_filter_map] at h1
    obtain ⟨job, hjob, rfl⟩ := List.mem_map.mp h1
    have h2 := (List.mem_filter.mp hjob).2
    simpa [meetsThreshold] using h2
  · intro job hjob
    constructor
    · intro h
      simp only [includedResults] at h
      obtain ⟨job', hj', heq⟩ := List.mem_filterMap.mp h
      split at heq
      · rename_i hle
        have hms : (calculate_overall_score resume job').overall =
            (calculate_overall_score resume job).overall :=
          congrArg MatchResult.match_score (Option.some.inj heq)
        rw [← hms]
        exact hle
      · cases heq
    · intro h
      simp only [includedResults]
      exact List.mem_filterMap.mpr ⟨job, hjob, by simp [h]⟩
  · simp only [finding_matching_jobs]
    split
    · rename_i hres
      have h0 : (catalog.filter (meetsThreshold resume min_score)).length = 0 := by
        rw [← length_includedResults, hres]
        rfl
      simp [h0]
    · rw [List.length_take, sort_values_desc, List.length_reverse, length_sortAsc,
        List.length_reverse, length_includedResults]
  · intro h
    have hres : includedResults resume catalog min_score = [] := by
      rw [includedResults_eq_filter_map]
      have : catalog.filter (meetsThreshold resume min_score) = [] := by
        rw [List.filter_eq_nil_iff]
        intro job hjob
        simp only [meetsThreshold, decide_eq_true_eq]
        exact not_le.mpr (h job hjob)
      rw [this]
      rfl
    simp [finding_matching_jobs, hres]

/-- Concrete profile with every field at its section-3 default. -/
def defaultProfile : ResumeProfile :=
  { skills := [], experience_years := 0, past_roles := [], current_role := "Not specified"
    domain := "Not specified", projects := [], education_level := "Not specified"
    technologies := [], career_level := "Not specified", work_preferences := "Not specified"
    key_achievements := [], desired_roles := [] }

/-- Concrete posting used in witnesses: plain text, no level keyword. -/
def jobA : JobPosting :=
  { category := some "Alpha", job_description := some "work on apps", company := some "A"
    location := none, post_link := none, keywords := none }

/-- Same posting as jobA except for the company, for tie-order tests. -/
def jobB : JobPosting := { jobA with company := some "B" }

theorem ranking_threshold_and_truncation_witness :
    finding_matching_jobs defaultProfile [jobA] 10 (9/10) = [] := by
  apply (ranking_threshold_and_truncation defaultProfile [jobA] 10 (9/10)).2.2.2
  intro job hjob
  rw [List.mem_singleton] at hjob
  subst hjob
  with_unfolding_all decide

/-- C2: the aggregated overall score is exactly 0.50 times the skill
score plus 0.30 times the experience score plus 0.20 times the title
score computed for the pair, with fixed weights. -/
theorem overall_score_formula (resume : ResumeProfile) (job : JobPosting) :
    (calculate_overall_score resume job).overall =
      (1/2) * calculate_skill_match resume.skills job.job_description
          (some (resolveJobTitle job)) +
      (3/10) * calculate_experience_match resume.experience_years
          (some (estimate_experience_level job.job_description
            (some (resolveJobTitle job)))) +
      (1/5) * calculate_title_match (some (resolveJobTitle job))
          resume.desired_roles := by
  simp only [calculate_overall_score]
  ring

/-- Profile whose only skill is python, for the keyword-scoring check. -/
def kwProfile : ResumeProfile := { defaultProfile with skills := ["python"] }

/-- Posting whose keywords column holds the skill that its description
and title lack. -/
def kwJob : JobPosting :=
  { category := some "Engineer", job_description := some "Backend role"
    company := none, location := none, post_link := none, keywords := some "python" }

/-- C5: calculate_overall_score (jobs_matcher.py lines 183-187) passes no
keywords to calculate_skill_match, so during ranking the keywords column
never takes part in the matched text: for a posting whose keywords hold
the only résumé skill, the pipeline skill score is 0 although the claimed
formula (keywords included, as calculate_skill_match itself supports and
its docstring describes) gives 1. -/
theorem keywords_ignored_in_pipeline :
    (calculate_overall_score kwProfile kwJob).skill_score = 0 ∧
    calculate_skill_match kwProfile.skills kwJob.job_description
        (some (resolveJobTitle kwJob)) kwJob.keywords = 1 := by
  constructor <;> with_unfolding_all decide

/-- C6: calculate_experience_match follows the fixed band table
(Internship 0-1, Entry level 0-2, Associate 1-3, Mid-Senior level 3-8,
Director 8-15, Executive 15-30): 1.0 inside the band, 0.95 / 0.85 / 0.70
/ 0.55 / 0.30 below the minimum by gap, 0.90 / 0.75 / 0.60 / 0.40 above
the maximum by gap, and 0.5 for an unknown or missing level; in
particular 1.0 years against Mid-Senior level scores 0.55. -/
theorem experience_match_table :
    level_ranges "Internship" = some (0, 1) ∧
    level_ranges "Entry level" = some (0, 2) ∧
    level_ranges "Associate" = some (1, 3) ∧
    level_ranges "Mid-Senior level" = some (3, 8) ∧
    level_ranges "Director" = some (8, 15) ∧
    level_ranges "Executive" = some (15, 30) ∧
    (∀ (years lo hi : ℚ) (lvl : String), level_ranges lvl = some (lo, hi) →
      (lo ≤ years → years ≤ hi →
        calculate_experience_match years (some lvl) = 1) ∧
      (years < lo → lo - years ≤ 1/2 →
        calculate_experience_match years (some lvl) = 95/100) ∧
      (years < lo → 1/2 < lo - years → lo - years ≤ 1 →
        calculate_experience_match years (some lvl) = 85/100) ∧
      (years < lo → 1 < lo - years → lo - years ≤ 3/2 →
        calculate_experience_match years (some lvl) = 7/10) ∧
      (years < lo → 3/2 < lo - years → lo - years ≤ 2 →
        calculate_experience_match years (some lvl) = 55/100) ∧
      (years < lo → 2 < lo - years →
        calculate_experience_match years (some lvl) = 3/10) ∧
      (hi < years → years - hi ≤ 1 →
        calculate_experience_match years (some lvl) = 9/10) ∧
      (hi < years → 1 < years - hi → years - hi ≤ 2 →
        calculate_experience_match years (some lvl) = 3/4) ∧
      (hi < years → 2 < years - hi → years - hi ≤ 3 →
        calculate_experience_match years (some lvl) = 6/10) ∧
      (hi < years → 3 < years - hi →
        calculate_experience_match years (some lvl) = 2/5)) ∧
    (∀ (years : ℚ) (lvl : String), level_ranges lvl = none →
      calculate_experience_match years (some lvl) = 1/2) ∧
    (∀ years : ℚ, calculate_experience_match years none = 1/2) := by
  refine ⟨by with_unfolding_all decide, by with_unfolding_all decide,
    by with_unfolding_all decide, by with_unfolding_all decide,
    by with_unfolding_all decide, by with_unfolding_all decide, ?_, ?_, ?_⟩
  · intro years lo hi lvl hband
    have hne : lvl ≠ "" := by
      rintro rfl
      rw [show level_ranges "" = none by with_unfolding_all decide] at hband
      cases hband
    have hlohi : lo ≤ hi := by
      unfold level_ranges at hband
      split_ifs at hband <;>
        simp only [Option.some.injEq, Prod.mk.injEq] at hband <;>
        (obtain ⟨rfl, rfl⟩ := hband; norm_num)
    simp only [calculate_experience_match, if_neg hne, hband]
    refine ⟨?_, ?_, ?_, ?_, ?_, ?_, ?_, ?_, ?_, ?_⟩ <;>
      intros <;> split_ifs <;>
      first
      | rfl
      | (exfalso; linarith)
      | linarith
      | exact absurd (And.intro (show lo ≤ years by linarith)
          (show years ≤ hi by linarith)) (by assumption)
  · intro years lvl hnone
    by_cases hne : lvl = ""
    · subst hne
      rfl
    · simp only [calculate_experience_match, if_neg hne, hnone]
  · intro years
    rfl

theorem experience_match_table_witness :
    calculate_experience_match 1 (some "Mid-Senior level") = 55/100 := by
  have h := (experience_match_table.2.2.2.2.2.2.1) 1 3 8 "Mid-Senior level"
    (by with_unfolding_all decide)
  exact h.2.2.2.2.1 (by with_unfolding_all decide) (by with_unfolding_all decide)
    (by with_unfolding_all decide)

/-- C3 counterexample: the first desired role shares exactly one word
with the title, a later one shares two, yet calculate_title_match returns
0.7, not 1.0 — the one-common-word branch at jobs_matcher.py line 166
returns immediately instead of continuing the scan. -/
theorem title_match_no_rescan_counterexample :
    calculate_title_match (some "data engineer") ["data", "data engineer"] = 7/10 ∧
    commonWordCount "data" ("data engineer".data.map pyLowerChar) = 1 ∧
    commonWordCount "data engineer" ("data engineer".data.map pyLowerChar) = 2 ∧
    (7/10 : ℚ) ≠ 1 := by
  refine ⟨?_, ?_, ?_, ?_⟩ <;> with_unfolding_all decide

theorem titleLoop_first_hit (tl : List Char) (pre : List String) (r : String)
    (post : List String) (hpre : ∀ p ∈ pre, commonWordCount p tl = 0) :
    (2 ≤ commonWordCount r tl → titleLoop tl (pre ++ r :: post) = 1) ∧
    (commonWordCount r tl = 1 → titleLoop tl (pre ++ r :: post) = 7/10) := by
  induction pre with
  | nil =>
    constructor
    · intro h2
      simp only [List.nil_append, titleLoop]
      rw [if_pos h2]
    · intro h1
      simp only [List.nil_append, titleLoop]
      rw [if_neg (by omega), if_pos h1]
  | cons p ps ih =>
    have hp0 : commonWordCount p tl = 0 := hpre p (List.mem_cons_self p ps)
    have ihs := ih (fun q hq => hpre q (List.mem_cons_of_mem p hq))
    constructor
    · intro h2
      have h := ihs.1 h2
      simp only [List.cons_append, titleLoop]
      rw [if_neg (by omega), if_neg (by omega)]
      exact h
    · intro h1
      have h := ihs.2 h1
      simp only [List.cons_append, titleLoop]
      rw [if_neg (by omega), if_neg (by omega)]
      exact h

/-- C3 amended: the scan of calculate_title_match stops at the first
desired role sharing at least one word with the title: after any run of
zero-overlap roles, a role with two or more common words yields 1.0 and a
role with exactly one common word yields 0.7 immediately, whatever
follows it (so a later two-word match is never reached). -/
theorem title_match_first_hit (t : String) (pre : List String) (r : String)
    (post : List String)
    (hpre : ∀ p ∈ pre, commonWordCount p (t.data.map pyLowerChar) = 0) :
    (2 ≤ commonWordCount r (t.data.map pyLowerChar) →
      calculate_title_match (some t) (pre ++ r :: post) = 1) ∧
    (commonWordCount r (t.data.map pyLowerChar) = 1 →
      calculate_title_match (some t) (pre ++ r :: post) = 7/10) := by
  have h := titleLoop_first_hit (t.data.map pyLowerChar) pre r post hpre
  constructor
  · intro h2
    simpa [calculate_title_match] using h.1 h2
  · intro h1
    simpa [calculate_title_match] using h.2 h1

theorem title_match_first_hit_witness :
    calculate_title_match (some "Data Engineer II") ["qq", "Senior Data Engineer"] = 1 := by
  have h := title_match_first_hit "Data Engineer II" ["qq"] "Senior Data Engineer" []
    (by with_unfolding_all decide)
  exact h.1 (by with_unfolding_all decide)

/-- C7: estimate_experience_level classifies by the first matching
keyword set over the lower-cased concatenation of description and title,
in the fixed priority order intern/internship, entry level/junior/
graduate/associate, senior/sr./lead/principal, director/head of/vp/vice
president, chief/cto/ceo/executive, with default Mid-Senior level when no
keyword occurs. -/
theorem estimator_priority_order (d t : Option String) :
    (containsAnyC (levelText d t) ["intern", "internship"] = true →
      estimate_experience_level d t = "Internship") ∧
    (containsAnyC (levelText d t) ["intern", "internship"] = false →
      containsAnyC (levelText d t) ["entry level", "junior", "graduate", "associate"] = true →
      estimate_experience_level d t = "Entry level") ∧
    (containsAnyC (levelText d t) ["intern", "internship"] = false →
      containsAnyC (levelText d t) ["entry level", "junior", "graduate", "associate"] = false →
      containsAnyC (levelText d t) ["senior", "sr.", "lead", "principal"] = true →
      estimate_experience_level d t = "Mid-Senior level") ∧
    (containsAnyC (levelText d t) ["intern", "internship"] = false →
      containsAnyC (levelText d t) ["entry level", "junior", "graduate", "associate"] = false →
      containsAnyC (levelText d t) ["senior", "sr.", "lead", "principal"] = false →
      containsAnyC (levelText d t) ["director", "head of", "vp", "vice president"] = true →
      estimate_experience_level d t = "Director") ∧
    (containsAnyC (levelText d t) ["intern", "internship"] = false →
      containsAnyC (levelText d t) ["entry level", "junior", "graduate", "associate"] = false →
      containsAnyC (levelText d t) ["senior", "sr.", "lead", "principal"] = false →
      containsAnyC (levelText d t) ["director", "head of", "vp", "vice president"] = false →
      containsAnyC (levelText d t) ["chief", "cto", "ceo", "executive"] = true →
      estimate_experience_level d t = "Executive") ∧
    (containsAnyC (levelText d t) ["intern", "internship"] = false →
      containsAnyC (levelText d t) ["entry level", "junior", "graduate", "associate"] = false →
      containsAnyC (levelText d t) ["senior", "sr.", "lead", "principal"] = false →
      containsAnyC (levelText d t) ["director", "head of", "vp", "vice president"] = false →
      containsAnyC (levelText d t) ["chief", "cto", "ceo", "executive"] = false →
      estimate_experience_level d t = "Mid-Senior level") := by
  refine ⟨?_, ?_, ?_, ?_, ?_, ?_⟩ <;>
    intros <;> simp_all [estimate_experience_level]

theorem estimator_priority_order_witness :
    estimate_experience_level (some "internship program") none = "Internship" :=
  (estimator_priority_order (some "internship program") none).1
    (by with_unfolding_all decide)

theorem skill_match_bounds (skills : List String) (d t k : Option String) :
    0 ≤ calculate_skill_match skills d t k ∧ calculate_skill_match skills d t k ≤ 1 := by
  unfold calculate_skill_match
  split
  · norm_num
  · rename_i hne
    have hpos : 0 < (skills.length : ℚ) := by
      have := List.length_pos.mpr hne
      exact_mod_cast this
    constructor
    · apply div_nonneg
      · exact Nat.cast_nonneg _
      · exact Nat.cast_nonneg _
    · rw [div_le_one hpos]
      exact_mod_cast List.length_filter_le _ _

theorem exp_match_bounds (years : ℚ) (lvl : Option String) :
    0 ≤ calculate_experience_match years lvl ∧
    calculate_experience_match years lvl ≤ 1 := by
  rcases lvl with _ | lvl
  · constructor <;> norm_num [calculate_experience_match]
  · rcases hlr : level_ranges lvl with _ | ⟨lo, hi⟩ <;>
      simp only [calculate_experience_match, hlr] <;>
      split_ifs <;> norm_num

theorem titleLoop_bounds (tl : List Char) (roles : List String) :
    0 ≤ titleLoop tl roles ∧ titleLoop tl roles ≤ 1 := by
  induction roles with
  | nil => norm_num [titleLoop]
  | cons r rs ih =>
    simp only [titleLoop]
    split_ifs with h1 h2
    · norm_num
    · norm_num
    · exact ih

theorem title_match_bounds (t : Option String) (roles : List String) :
    0 ≤ calculate_title_match t roles ∧ calculate_title_match t roles ≤ 1 := by
  rcases t with _ | t
  · constructor <;> norm_num [calculate_title_match]
  · simp only [calculate_title_match]
    split_ifs
    · norm_num
    · exact titleLoop_bounds _ _

/-- C9: for a structurally valid profile and posting (profile fields all
present, experience_years non-negative) every core scoring function
terminates with a value in the closed interval from 0 to 1, and so does
the aggregated overall score. -/
theorem scores_total_and_bounded (resume : ResumeProfile) (job : JobPosting)
    (hyears : 0 ≤ resume.experience_years) :
    0 ≤ (calculate_overall_score resume job).skill_score ∧
    (calculate_overall_score resume job).skill_score ≤ 1 ∧
    0 ≤ (calculate_overall_score resume job).exp_score ∧
    (calculate_overall_score resume job).exp_score ≤ 1 ∧
    0 ≤ (calculate_overall_score resume job).title_score ∧
    (calculate_overall_score resume job).title_score ≤ 1 ∧
    0 ≤ (calculate_overall_score resume job).overall ∧
    (calculate_overall_score resume job).overall ≤ 1 := by
  obtain ⟨s0, s1⟩ := skill_match_bounds resume.skills job.job_description
    (some (resolveJobTitle job)) none
  obtain ⟨e0, e1⟩ := exp_match_bounds resume.experience_years
    (some (estimate_experience_level job.job_description (some (resolveJobTitle job))))
  obtain ⟨t0, t1⟩ := title_match_bounds (some (resolveJobTitle job)) resume.desired_roles
  have hov : (calculate_overall_score resume job).overall =
      calculate_skill_match resume.skills job.job_description
          (some (resolveJobTitle job)) * (1/2) +
      calculate_experience_match resume.experience_years
          (some (estimate_experience_level job.job_description
            (some (resolveJobTitle job)))) * (3/10) +
      calculate_title_match (some (resolveJobTitle job))
          resume.desired_roles * (1/5) := rfl
  exact ⟨s0, s1, e0, e1, t0, t1, by rw [hov]; linarith, by rw [hov]; linarith⟩

theorem scores_total_and_bounded_witness :
    0 ≤ defaultProfile.experience_years ∧
    0 ≤ (calculate_overall_score defaultProfile jobA).overall ∧
    (calculate_overall_score defaultProfile jobA).overall ≤ 1 :=
  ⟨by with_unfolding_all decide,
   (scores_total_and_bounded defaultProfile jobA (by with_unfolding_all decide)).2.2.2.2.2.2.1,
   (scores_total_and_bounded defaultProfile jobA (by with_unfolding_all decide)).2.2.2.2.2.2.2⟩

theorem estimator_output_cases (d t : Option String) :
    estimate_experience_level d t = "Internship" ∨
    estimate_experience_level d t = "Entry level" ∨
    estimate_experience_level d t = "Mid-Senior level" ∨
    estimate_experience_level d t = "Director" ∨
    estimate_experience_level d t = "Executive" := by
  simp only [estimate_experience_level]
  split_ifs <;> simp

theorem exp_match_known_ne_half (years : ℚ) (lvl : String)
    (h : lvl = "Internship" ∨ lvl = "Entry level" ∨ lvl = "Mid-Senior level" ∨
      lvl = "Director" ∨ lvl = "Executive") :
    calculate_experience_match years (some lvl) ≠ 1/2 := by
  have key : ∀ (s : String) (lo hi : ℚ), s ≠ "" → level_ranges s = some (lo, hi) →
      calculate_experience_match years (some s) ≠ 1/2 := by
    intro s lo hi hne hlr
    simp only [calculate_experience_match, if_neg hne, hlr]
    split_ifs <;> norm_num
  rcases h with rfl | rfl | rfl | rfl | rfl
  · exact key _ 0 1 (by decide) (by with_unfolding_all decide)
  · exact key _ 0 2 (by decide) (by with_unfolding_all decide)
  · exact key _ 3 8 (by decide) (by with_unfolding_all decide)
  · exact key _ 8 15 (by decide) (by with_unfolding_all decide)
  · exact key _ 15 30 (by decide) (by with_unfolding_all decide)

/-- C10: the level estimator returns one of exactly five labels and never
the string Associate, so in the ranking pipeline the Associate band of
the experience scorer is unreachable and its neutral 0.5 branch is never
taken for an estimator-produced level (no band value equals 0.5). -/
theorem estimator_never_associate (d t : Option String) (years : ℚ)
    (resume : ResumeProfile) (job : JobPosting) :
    (estimate_experience_level d t = "Internship" ∨
     estimate_experience_level d t = "Entry level" ∨
     estimate_experience_level d t = "Mid-Senior level" ∨
     estimate_experience_level d t = "Director" ∨
     estimate_experience_level d t = "Executive") ∧
    estimate_experience_level d t ≠ "Associate" ∧
    (level_ranges (estimate_experience_level d t)).isSome = true ∧
    calculate_experience_match years (some (estimate_experience_level d t)) ≠ 1/2 ∧
    (calculate_overall_score resume job).estimated_level ≠ "Associate" ∧
    (calculate_overall_score resume job).exp_score ≠ 1/2 := by
  refine ⟨estimator_output_cases d t, ?_, ?_, ?_, ?_, ?_⟩
  · rcases estimator_output_cases d t with h | h | h | h | h <;>
      rw [h] <;> with_unfolding_all decide
  · rcases estimator_output_cases d t with h | h | h | h | h <;>
      rw [h] <;> with_unfolding_all decide
  · exact exp_match_known_ne_half years _ (estimator_output_cases d t)
  · show estimate_experience_level job.job_description
        (some (resolveJobTitle job)) ≠ "Associate"
    rcases estimator_output_cases job.job_description
        (some (resolveJobTitle job)) with h | h | h | h | h <;>
      rw [h] <;> with_unfolding_all decide
  · exact exp_match_known_ne_half resume.experience_years _
      (estimator_output_cases job.job_description (some (resolveJobTitle job)))

/-- Fallback-title computation as spec section 4.1 words it: the first
newline-delimited line of the whole description, trimmed and truncated to
100 characters; "Unknown Position" when the description is absent.
Stated for comparison with the source extract_title_from_description. -/
def specFallbackTitle : Option String → String
  | none => "Unknown Position"
  | some d => String.mk ((trimChars (firstLineChars d.data)).take 100)

/-- Single-line description longer than 200 characters whose long
whitespace run crosses the 200-character cut made by the source. -/
def longLineDesc : String := "abc" ++ String.mk (List.replicate 197 ' ') ++ "def"

/-- C8 counterexample: on a description whose only line is longer than
200 characters the source function first truncates to 200 characters and
so strips whitespace that the spec formula keeps: the results differ. -/
theorem fallback_title_counterexample :
    extract_title_from_description (some longLineDesc) = "abc" ∧
    specFallbackTitle (some longLineDesc) =
      "abc" ++ String.mk (List.replicate 97 ' ') ∧
    extract_title_from_description (some longLineDesc) ≠
      specFallbackTitle (some longLineDesc) := by
  refine ⟨?_, ?_, ?_⟩ <;> with_unfolding_all decide

theorem takeWhile_take_comm (p : Char → Bool) (l : List Char) (n : ℕ) :
    (l.take n).takeWhile p = (l.takeWhile p).take n := by
  induction l generalizing n with
  | nil => simp
  | cons c cs ih =>
    cases n with
    | zero => simp
    | succ m =>
      by_cases hc : p c
      · simp [List.take_succ_cons, List.takeWhile_cons, hc, ih]
      · simp [List.take_succ_cons, List.takeWhile_cons, hc]

/-- C8 amended: the fallback title is the first newline-delimited line of
the first 200 characters of the description, trimmed and truncated to 100
characters ("Unknown Position" when the description is absent, and always
a string); it agrees with the spec formula whenever the first line of the
description is at most 200 characters long. -/
theorem fallback_title_amended (d : String) :
    extract_title_from_description none = "Unknown Position" ∧
    extract_title_from_description (some d) =
      String.mk ((trimChars (firstLineChars (d.data.take 200))).take 100) ∧
    ((firstLineChars d.data).length ≤ 200 →
      extract_title_from_description (some d) = specFallbackTitle (some d)) := by
  refine ⟨rfl, rfl, ?_⟩
  intro h
  simp only [firstLineChars] at h
  show String.mk
      ((trimChars ((d.data.take 200).takeWhile (fun c => c != '\n'))).take 100) = _
  rw [takeWhile_take_comm, List.take_of_length_le h]
  rfl

theorem fallback_title_amended_witness :
    extract_title_from_description (some "  Data Engineer\nrest") =
      specFallbackTitle (some "  Data Engineer\nrest") := by
  apply (fallback_title_amended "  Data Engineer\nrest").2.2
  with_unfolding_all decide

/-- C4: the descending sort of finding_matching_jobs models pandas
nargsort for a descending sort (reverse the rows, stable ascending sort,
reverse the result), which is a stable descending sort: two included
postings with equal overall score appear in the output in their original
catalog order (stated with top_n large enough that truncation drops
neither). -/
theorem tie_order_preserved (resume : ResumeProfile) (catalog : List JobPosting)
    (top_n : ℕ) (min_score : ℚ) (i j : ℕ)
    (hi : i < catalog.length) (hj : j < catalog.length) (hij : i < j)
    (hin_i : min_score ≤
      (calculate_overall_score resume (catalog.get ⟨i, hi⟩)).overall)
    (hin_j : min_score ≤
      (calculate_overall_score resume (catalog.get ⟨j, hj⟩)).overall)
    (heq : (calculate_overall_score resume (catalog.get ⟨i, hi⟩)).overall =
      (calculate_overall_score resume (catalog.get ⟨j, hj⟩)).overall)
    (htop : (includedResults resume catalog min_score).length ≤ top_n) :
    List.Sublist
      [mkResult (catalog.get ⟨i, hi⟩)
        (calculate_overall_score resume (catalog.get ⟨i, hi⟩)),
       mkResult (catalog.get ⟨j, hj⟩)
        (calculate_overall_score resume (catalog.get ⟨j, hj⟩))]
      (finding_matching_jobs resume catalog top_n min_score) := by
  have hpair : List.Sublist [catalog.get ⟨i, hi⟩, catalog.get ⟨j, hj⟩] catalog :=
    pair_sublist_of_get catalog i j hi hj hij
  have hfm := hpair.filterMap (fun job =>
    if min_score ≤ (calculate_overall_score resume job).overall
    then some (mkResult job (calculate_overall_score resume job)) else none)
  rw [show List.filterMap (fun job =>
      if min_score ≤ (calculate_overall_score resume job).overall
      then some (mkResult job (calculate_overall_score resume job)) else none)
      [catalog.get ⟨i, hi⟩, catalog.get ⟨j, hj⟩] =
      [mkResult (catalog.get ⟨i, hi⟩)
        (calculate_overall_score resume (catalog.get ⟨i, hi⟩)),
       mkResult (catalog.get ⟨j, hj⟩)
        (calculate_overall_score resume (catalog.get ⟨j, hj⟩))] from by
    simp only [List.filterMap_cons, List.filterMap_nil]
    rw [if_pos hin_i, if_pos hin_j]] at hfm
  have hfm' : List.Sublist
      [mkResult (catalog.get ⟨i, hi⟩)
        (calculate_overall_score resume (catalog.get ⟨i, hi⟩)),
       mkResult (catalog.get ⟨j, hj⟩)
        (calculate_overall_score resume (catalog.get ⟨j, hj⟩))]
      (includedResults resume catalog min_score) := hfm
  have hrev1 : List.Sublist
      [mkResult (catalog.get ⟨j, hj⟩)
        (calculate_overall_score resume (catalog.get ⟨j, hj⟩)),
       mkResult (catalog.get ⟨i, hi⟩)
        (calculate_overall_score resume (catalog.get ⟨i, hi⟩))]
      (includedResults resume catalog min_score).reverse := by
    simpa using hfm'.reverse
  have hsort := pair_sublist_sortAsc hrev1 (le_of_eq heq.symm)
  have hne : includedResults resume catalog min_score ≠ [] := by
    intro h0
    rw [h0] at hfm'
    cases hfm'
  simp only [finding_matching_jobs, if_neg hne, sort_values_desc]
  rw [List.take_of_length_le
    (by rw [List.length_reverse, length_sortAsc, List.length_reverse]; exact htop)]
  simpa using hsort.reverse

theorem tie_order_preserved_witness :
    List.Sublist
      [mkResult jobA (calculate_overall_score defaultProfile jobA),
       mkResult jobB (calculate_overall_score defaultProfile jobB)]
      (finding_matching_jobs defaultProfile [jobA, jobB] 10 0) :=
  tie_order_preserved defaultProfile [jobA, jobB] 10 0 0 1
    (by decide) (by decide) (by decide)
    (by with_unfolding_all decide) (by with_unfolding_all decide)
    (by with_unfolding_all decide) (by with_unfolding_all decide)
